import Mathlib

/-!
Shallow embedding of the gym-warehouse continuous environment
(`src/warehouse/continuous.py`, class `WarehouseContinuous`) together with the
constants of the legacy environment (`src/warehouse.py`, class `Warehouse`)
that the specification's reward formula names.

Modelling conventions:
* `float32` quantities that only ever hold small decimal constants and results
  of exact additions/subtractions are modelled as exact rationals (`ℚ`); the
  pickup timers only ever hold integers in `[-1, 400]`, so they are `ℤ`.
* A comparison `np.linalg.norm(p - q) < tol` (with `tol ≥ 0`) is modelled as
  `distSq p q < tol ^ 2`, which is equivalent and keeps everything rational.
* The Box2D physics step is the external collaborator; `step` therefore takes
  the post-integration agent positions as an input (`StepInput.newAgentPositions`).
* Each call to `np.random.choice(arr, k, replace=False)` is modelled as taking
  the first `k` elements of an oracle-provided permutation of `arr`
  (`RandomOracle`); a valid oracle returns permutations.
* numpy fancy assignment `arr[idxs] = vals` is modelled by `setAll`, which
  writes the pairs left to right (duplicate indices: last write wins, as in
  numpy).  `arr[mask] = v` is modelled pointwise with `if`.
* `np.random.choice` raises when asked for more elements than available; in the
  model `Int.toNat` sends a negative requested count to `0`.  The regeneration
  count is nonnegative in every reachable state, so this difference is inert.
-/

namespace GymWarehouse

/-- 2D point, components exact rationals. -/
abbrev Vec2 := ℚ × ℚ

/-- Squared Euclidean distance; `norm (p - q) < tol` iff `distSq p q < tol ^ 2`. -/
def distSq (p q : Vec2) : ℚ := (p.1 - q.1) ^ 2 + (p.2 - q.2) ^ 2

/-! Constants of `src/warehouse/continuous.py`. -/

abbrev NUM_AGENTS : ℕ := 2
abbrev NUM_PICKUP_POINTS : ℕ := 4
abbrev NUM_DELIVERY_POINTS : ℕ := 16
abbrev NUM_REQUESTS : ℕ := 2

def PICKUP_REWARD : ℚ := 1
def DELIVERY_REWARD : ℚ := 1

abbrev MAX_EPISODE_TIME : ℕ := 800
def MAX_PICKUP_WAIT_TIME : ℤ := 400

def PICKUP_POSITION_TOLERANCE : ℚ := 3 / 10
def DELIVERY_POSITION_TOLERANCE : ℚ := 3 / 10

/-- `WarehouseContinuous.reward_range = (0.0, 1.0)` (line 97). -/
def reward_range : ℚ × ℚ := (0, 1)

/-! Constants of the legacy `src/warehouse.py` (`Warehouse`): these are the
values the repository gives to the constants named in the specification's
reward formula (`COLLISION_PENALTY`, `PICKUP_BASE`, `PICKUP_TIME_MULTIPLIER`). -/

def COLLISION_REWARD : ℚ := -1
def PICKUP_BASE_REWARD : ℚ := 100
def PICKUP_TIME_REWARD_MULTIPLIER : ℚ := 10

/-- The mutable arrays of `WarehouseContinuous` (its `__init__`/`reset` state),
minus the Box2D bodies and the viewer, which belong to external collaborators. -/
structure WState where
  agentPositions : Fin NUM_AGENTS → Vec2
  agentDeliveryTargets : Fin NUM_AGENTS → ℤ
  deliveryPointPositions : Fin NUM_DELIVERY_POINTS → Vec2
  pickupPointPositions : Fin NUM_PICKUP_POINTS → Vec2
  pickupPointTargets : Fin NUM_PICKUP_POINTS → ℤ
  pickupPointTimers : Fin NUM_PICKUP_POINTS → ℤ
  episodeTime : ℕ
deriving DecidableEq

/-- Oracle standing for the global numpy generator: each
`np.random.choice(arr, k, replace=False)` call takes `(permute... arr).take k`. -/
structure RandomOracle where
  permutePickups : List (Fin NUM_PICKUP_POINTS) → List (Fin NUM_PICKUP_POINTS)
  permuteTargets : List (Fin NUM_DELIVERY_POINTS) → List (Fin NUM_DELIVERY_POINTS)

/-- The oracle behaves like `np.random`: it returns permutations of its input. -/
def RandomOracle.Valid (r : RandomOracle) : Prop :=
  (∀ l, (r.permutePickups l).Perm l) ∧ (∀ l, (r.permuteTargets l).Perm l)

/-- numpy fancy assignment `f[pairs.map fst] = pairs.map snd`:
sequential writes, later pairs overwrite earlier ones. -/
def setAll {n : ℕ} {α : Type} (f : Fin n → α) (pairs : List (Fin n × α)) : Fin n → α :=
  pairs.foldl (fun g p => Function.update g p.1 p.2) f

/-- `self._delivery_point_positions[t]` for an `int32` index `t`; only ever used
with `t` in `[0, NUM_DELIVERY_POINTS)` (guarded by `t > -1` in the source). -/
def deliveryPosAt (d : Fin NUM_DELIVERY_POINTS → Vec2) (t : ℤ) : Vec2 :=
  if h : t.toNat < NUM_DELIVERY_POINTS then d ⟨t.toNat, h⟩ else (0, 0)

/-- Physics output plus the randomness consumed by one `step` call. -/
structure StepInput where
  newAgentPositions : Fin NUM_AGENTS → Vec2
  rng : RandomOracle

/-! ## The step algorithm, stage by stage (lines 249-376 of continuous.py) -/

/-- `self._pickup_point_timers[self._pickup_point_targets > -1] -= 1.0` (line 269). -/
def decTimers (s : WState) : Fin NUM_PICKUP_POINTS → ℤ := fun j =>
  if s.pickupPointTargets j > -1 then s.pickupPointTimers j - 1 else s.pickupPointTimers j

/-- `expired_waiting_pickup_points_mask = self._pickup_point_timers == 0.0` (line 270). -/
def expiredMask (s : WState) : Fin NUM_PICKUP_POINTS → Bool := fun j =>
  decTimers s j == 0

/-- Pickup targets after expiry (line 271). -/
def targetsAfterExpiry (s : WState) : Fin NUM_PICKUP_POINTS → ℤ := fun j =>
  if expiredMask s j then -1 else s.pickupPointTargets j

/-- Pickup timers after expiry (line 272). -/
def timersAfterExpiry (s : WState) : Fin NUM_PICKUP_POINTS → ℤ := fun j =>
  if expiredMask s j then -1 else decTimers s j

/-- One entry of `agent_and_pickup_point_collisions` (lines 275-282):
strict comparison of the distance against `PICKUP_POSITION_TOLERANCE`. -/
def collides (pos : Fin NUM_AGENTS → Vec2) (ppos : Fin NUM_PICKUP_POINTS → Vec2)
    (i : Fin NUM_AGENTS) (j : Fin NUM_PICKUP_POINTS) : Bool :=
  decide (distSq (pos i) (ppos j) < PICKUP_POSITION_TOLERANCE ^ 2)

/-- `np.argmax(agent_and_pickup_point_collisions, axis=1)` (line 283): the first
`True` column, `0` if the row is all `False`. -/
def pickupCandidate (pos : Fin NUM_AGENTS → Vec2) (ppos : Fin NUM_PICKUP_POINTS → Vec2)
    (i : Fin NUM_AGENTS) : Fin NUM_PICKUP_POINTS :=
  ((List.finRange NUM_PICKUP_POINTS).find? (fun j => collides pos ppos i j)).getD 0

/-- `new_delivering_agents_mask` (lines 284-288): any point in tolerance, agent
not already delivering, and the candidate point currently waiting. -/
def newDeliveringMask (s : WState) (pos : Fin NUM_AGENTS → Vec2) (i : Fin NUM_AGENTS) : Bool :=
  (List.finRange NUM_PICKUP_POINTS).any (fun j => collides pos s.pickupPointPositions i j)
    && (s.agentDeliveryTargets i == -1)
    && decide (targetsAfterExpiry s (pickupCandidate pos s.pickupPointPositions i) > -1)

/-- `self._agent_delivery_targets[new_delivering_agents_mask] = ...` (lines 291-293). -/
def agentTargetsAfterPickup (s : WState) (pos : Fin NUM_AGENTS → Vec2) :
    Fin NUM_AGENTS → ℤ := fun i =>
  if newDeliveringMask s pos i then
    targetsAfterExpiry s (pickupCandidate pos s.pickupPointPositions i)
  else s.agentDeliveryTargets i

/-- Whether point `j` is claimed this tick, i.e. `j ∈ new_served_pickup_points`. -/
def claimedMask (s : WState) (pos : Fin NUM_AGENTS → Vec2) (j : Fin NUM_PICKUP_POINTS) : Bool :=
  (List.finRange NUM_AGENTS).any fun i =>
    newDeliveringMask s pos i && (pickupCandidate pos s.pickupPointPositions i == j)

/-- `self._pickup_point_targets[new_served_pickup_points] = -1` (line 294). -/
def pickupTargetsAfterClaims (s : WState) (pos : Fin NUM_AGENTS → Vec2) :
    Fin NUM_PICKUP_POINTS → ℤ := fun j =>
  if claimedMask s pos j then -1 else targetsAfterExpiry s j

/-- `self._pickup_point_timers[new_served_pickup_points] = -1.0` (line 295). -/
def pickupTimersAfterClaims (s : WState) (pos : Fin NUM_AGENTS → Vec2) :
    Fin NUM_PICKUP_POINTS → ℤ := fun j =>
  if claimedMask s pos j then -1 else timersAfterExpiry s j

/-- `inactive_pickup_points = np.where(self._pickup_point_targets == -1)[0]` (line 302). -/
def inactiveAfterClaims (s : WState) (pos : Fin NUM_AGENTS → Vec2) :
    List (Fin NUM_PICKUP_POINTS) :=
  (List.finRange NUM_PICKUP_POINTS).filter fun j => pickupTargetsAfterClaims s pos j == -1

/-- `NUM_REQUESTS - NUM_PICKUP_POINTS + inactive_pickup_points.shape[0]` (line 305). -/
def regenCount (s : WState) (pos : Fin NUM_AGENTS → Vec2) : ℤ :=
  (NUM_REQUESTS : ℤ) - (NUM_PICKUP_POINTS : ℤ) + (inactiveAfterClaims s pos).length

/-- `new_waiting_pickup_points = np.random.choice(inactive_pickup_points, k, replace=False)`
(lines 303-307). -/
def regenPoints (s : WState) (pos : Fin NUM_AGENTS → Vec2) (rng : RandomOracle) :
    List (Fin NUM_PICKUP_POINTS) :=
  (rng.permutePickups (inactiveAfterClaims s pos)).take (regenCount s pos).toNat

/-- `new_pickup_point_targets = np.random.choice(NUM_DELIVERY_POINTS, k, replace=False)`
(lines 310-314). -/
def regenTargets (s : WState) (pos : Fin NUM_AGENTS → Vec2) (rng : RandomOracle) :
    List (Fin NUM_DELIVERY_POINTS) :=
  (rng.permuteTargets (List.finRange NUM_DELIVERY_POINTS)).take (regenCount s pos).toNat

/-- `self._pickup_point_timers[new_waiting_pickup_points] = MAX_PICKUP_WAIT_TIME` (line 308). -/
def pickupTimersAfterRegen (s : WState) (pos : Fin NUM_AGENTS → Vec2) (rng : RandomOracle) :
    Fin NUM_PICKUP_POINTS → ℤ :=
  setAll (pickupTimersAfterClaims s pos)
    ((regenPoints s pos rng).map fun j => (j, MAX_PICKUP_WAIT_TIME))

/-- `self._pickup_point_targets[new_waiting_pickup_points] = new_pickup_point_targets`
(line 315). -/
def pickupTargetsAfterRegen (s : WState) (pos : Fin NUM_AGENTS → Vec2) (rng : RandomOracle) :
    Fin NUM_PICKUP_POINTS → ℤ :=
  setAll (pickupTargetsAfterClaims s pos)
    ((regenPoints s pos rng).zip ((regenTargets s pos rng).map fun t => (t.val : ℤ)))

/-- `delivering_agents_completion` (lines 318-327): agent carrying a target and
strictly within `DELIVERY_POSITION_TOLERANCE` of it. -/
def deliveredMask (s : WState) (pos : Fin NUM_AGENTS → Vec2) (i : Fin NUM_AGENTS) : Bool :=
  decide (agentTargetsAfterPickup s pos i > -1)
    && decide (distSq (pos i)
        (deliveryPosAt s.deliveryPointPositions (agentTargetsAfterPickup s pos i))
      < DELIVERY_POSITION_TOLERANCE ^ 2)

/-- `self._agent_delivery_targets[delivered_agents] = -1` (line 329). -/
def agentTargetsAfterDelivery (s : WState) (pos : Fin NUM_AGENTS → Vec2) :
    Fin NUM_AGENTS → ℤ := fun i =>
  if deliveredMask s pos i then -1 else agentTargetsAfterPickup s pos i

/-- `agent_rewards` (lines 298-299 and 332): `+= PICKUP_REWARD` at the new
delivering agents, `+= DELIVERY_REWARD` at the delivered agents. -/
def stepRewards (s : WState) (pos : Fin NUM_AGENTS → Vec2) (i : Fin NUM_AGENTS) : ℚ :=
  (if newDeliveringMask s pos i then PICKUP_REWARD else 0)
    + (if deliveredMask s pos i then DELIVERY_REWARD else 0)

/-! ## Observations (lines 334-366) -/

/-- One agent's observation record. -/
structure Obs where
  selfPosition : Vec2
  selfAvailability : ℕ
  selfDeliveryTarget : Vec2
  otherPositions : List Vec2
  otherAvailabilities : List ℕ
  otherDeliveryTargets : List Vec2
  requests : List (Vec2 × Vec2)
deriving DecidableEq

/-- `agent_availabilities` (lines 336-337): `1`, zeroed at delivering agents. -/
def availabilities (targets : Fin NUM_AGENTS → ℤ) (i : Fin NUM_AGENTS) : ℕ :=
  if targets i > -1 then 0 else 1

/-- `agent_delivery_target_positions` (lines 339-342): zero vector, overwritten
with the target delivery point position at delivering agents. -/
def targetPositions (d : Fin NUM_DELIVERY_POINTS → Vec2) (targets : Fin NUM_AGENTS → ℤ)
    (i : Fin NUM_AGENTS) : Vec2 :=
  if targets i > -1 then deliveryPosAt d (targets i) else (0, 0)

/-- `requests` (lines 344-353): rows `(pickup_position, delivery_position)` of
the waiting pickup points, in point-index order (boolean-mask indexing). -/
def requestsOf (ppos : Fin NUM_PICKUP_POINTS → Vec2) (ptargets : Fin NUM_PICKUP_POINTS → ℤ)
    (d : Fin NUM_DELIVERY_POINTS → Vec2) : List (Vec2 × Vec2) :=
  ((List.finRange NUM_PICKUP_POINTS).filter fun j => decide (ptargets j > -1)).map
    fun j => (ppos j, deliveryPosAt d (ptargets j))

/-- `np.delete(arr, k, axis=0)`: all rows except row `k`, in order. -/
def npDelete {n : ℕ} {α : Type} (f : Fin n → α) (k : Fin n) : List α :=
  ((List.finRange n).filter fun j => j != k).map f

/-- The observation dict entry for agent `i` (lines 355-366).  Note line 362:
`other_delivery_targets` deletes row `1`, not row `i`, faithfully reproduced. -/
def stepObs (s : WState) (pos : Fin NUM_AGENTS → Vec2) (rng : RandomOracle)
    (i : Fin NUM_AGENTS) : Obs :=
  { selfPosition := pos i
    selfAvailability := availabilities (agentTargetsAfterDelivery s pos) i
    selfDeliveryTarget :=
      targetPositions s.deliveryPointPositions (agentTargetsAfterDelivery s pos) i
    otherPositions := npDelete pos i
    otherAvailabilities := npDelete (availabilities (agentTargetsAfterDelivery s pos)) i
    otherDeliveryTargets :=
      npDelete (targetPositions s.deliveryPointPositions (agentTargetsAfterDelivery s pos)) 1
    requests := requestsOf s.pickupPointPositions (pickupTargetsAfterRegen s pos rng)
      s.deliveryPointPositions }

/-- The four dictionaries returned by `step` (observations, rewards, dones;
`infos` is constant and omitted). -/
structure StepOutput where
  observations : Fin NUM_AGENTS → Obs
  rewards : Fin NUM_AGENTS → ℚ
  agentDones : Fin NUM_AGENTS → Bool
  allDone : Bool
deriving DecidableEq

/-- The state after one `step` call. -/
def stepState (s : WState) (inp : StepInput) : WState :=
  { agentPositions := inp.newAgentPositions
    agentDeliveryTargets := agentTargetsAfterDelivery s inp.newAgentPositions
    deliveryPointPositions := s.deliveryPointPositions
    pickupPointPositions := s.pickupPointPositions
    pickupPointTargets := pickupTargetsAfterRegen s inp.newAgentPositions inp.rng
    pickupPointTimers := pickupTimersAfterRegen s inp.newAgentPositions inp.rng
    episodeTime := s.episodeTime + 1 }

/-- The returned values of one `step` call; `episode_done = self._episode_time
>= MAX_EPISODE_TIME` with the already incremented counter (lines 254, 372-374). -/
def stepOutput (s : WState) (inp : StepInput) : StepOutput :=
  { observations := stepObs s inp.newAgentPositions inp.rng
    rewards := stepRewards s inp.newAgentPositions
    agentDones := fun _ => decide (s.episodeTime + 1 ≥ MAX_EPISODE_TIME)
    allDone := decide (s.episodeTime + 1 ≥ MAX_EPISODE_TIME) }

/-! ## Reset (lines 147-247) -/

/-- `AGENT_INITIAL_POSITIONS = [(3.0, 3.0), (7.0, 7.0)]` (lines 53-56). -/
def agentInitialPositions : Fin NUM_AGENTS → Vec2 := ![(3, 3), (7, 7)]

/-- Pickup rack corners around `(5, 5)` (lines 182-194). -/
def pickupPointPositionsInit : Fin NUM_PICKUP_POINTS → Vec2 :=
  ![(9/2, 9/2), (11/2, 9/2), (11/2, 11/2), (9/2, 11/2)]

/-- Delivery points along the border walls, `val = 2, 3, 4, 5` (lines 196-207). -/
def deliveryPointPositionsInit : Fin NUM_DELIVERY_POINTS → Vec2 :=
  ![(7/2, 3/2), (7/2, 17/2), (3/2, 7/2), (17/2, 7/2),
    (9/2, 3/2), (9/2, 17/2), (3/2, 9/2), (17/2, 9/2),
    (11/2, 3/2), (11/2, 17/2), (3/2, 11/2), (17/2, 11/2),
    (13/2, 3/2), (13/2, 17/2), (3/2, 13/2), (17/2, 13/2)]

/-- The state built by `reset` (lines 147-219). -/
def resetState (rng : RandomOracle) : WState :=
  { agentPositions := agentInitialPositions
    agentDeliveryTargets := fun _ => -1
    deliveryPointPositions := deliveryPointPositionsInit
    pickupPointPositions := pickupPointPositionsInit
    pickupPointTargets :=
      setAll (fun _ => -1)
        (((rng.permutePickups (List.finRange NUM_PICKUP_POINTS)).take NUM_REQUESTS).zip
          (((rng.permuteTargets (List.finRange NUM_DELIVERY_POINTS)).take NUM_REQUESTS).map
            fun t => (t.val : ℤ)))
    pickupPointTimers :=
      setAll (fun _ => -1)
        (((rng.permutePickups (List.finRange NUM_PICKUP_POINTS)).take NUM_REQUESTS).map
          fun j => (j, MAX_PICKUP_WAIT_TIME))
    episodeTime := 0 }

/-- The observation dict returned by `reset` (lines 221-247): everyone
available, zero target positions, `np.delete(..., i, ...)` on all three. -/
def resetObs (rng : RandomOracle) (i : Fin NUM_AGENTS) : Obs :=
  { selfPosition := (resetState rng).agentPositions i
    selfAvailability := 1
    selfDeliveryTarget := (0, 0)
    otherPositions := npDelete (resetState rng).agentPositions i
    otherAvailabilities := npDelete (fun _ : Fin NUM_AGENTS => 1) i
    otherDeliveryTargets := npDelete (fun _ : Fin NUM_AGENTS => ((0 : ℚ), (0 : ℚ))) i
    requests := requestsOf (resetState rng).pickupPointPositions
      (resetState rng).pickupPointTargets (resetState rng).deliveryPointPositions }

/-! ## Trajectories -/

/-- `step` applied along a list of inputs, recording each call's returned
values and the state at the end of the call. -/
def runTraceS (s : WState) (inputs : List StepInput) : List (StepOutput × WState) :=
  match inputs with
  | [] => []
  | inp :: rest => (stepOutput s inp, stepState s inp) :: runTraceS (stepState s inp) rest

/-- Number of `Waiting` pickup points of a target table (`targets > -1`). -/
def waitingCountF (t : Fin NUM_PICKUP_POINTS → ℤ) : ℕ :=
  ((List.finRange NUM_PICKUP_POINTS).filter fun j => decide (t j > -1)).length

/-! ## The process-global numpy generator (for the determinism claim)

`reset`/`step` draw from `np.random`, the process-global generator, in a fixed
call order (two `choice` calls per `reset` and per `step`).  A `GlobalStream`
assigns the oracle used by the `n`-th `choice`-pair; a run started at stream
position `pos` consumes positions `pos, pos+1, ...` in order, exactly like
successive calls against the shared global generator. -/

def GlobalStream := ℕ → RandomOracle

/-- Every draw of the stream behaves like `np.random`. -/
def GlobalStream.Valid (g : GlobalStream) : Prop := ∀ n, (g n).Valid

/-- The oracle consumed by one `reset` or `step` call starting at stream
position `pos`: its first `choice` call is draw `pos`, its second `pos + 1`. -/
def oracleAt (g : GlobalStream) (pos : ℕ) : RandomOracle :=
  ⟨(g pos).permutePickups, (g (pos + 1)).permuteTargets⟩

/-- Successive `step` calls against the global stream, two draws per call. -/
def runGlobalSteps (g : GlobalStream) (pos : ℕ) (s : WState)
    (moves : List (Fin NUM_AGENTS → Vec2)) : List (StepOutput × WState) :=
  match moves with
  | [] => []
  | m :: rest =>
    (stepOutput s ⟨m, oracleAt g pos⟩, stepState s ⟨m, oracleAt g pos⟩) ::
      runGlobalSteps g (pos + 2) (stepState s ⟨m, oracleAt g pos⟩) rest

/-- A full run against the global generator: `reset` (two draws) followed by
one `step` per physics outcome in `moves` (two draws each). -/
def runFromGlobal (g : GlobalStream) (pos : ℕ) (moves : List (Fin NUM_AGENTS → Vec2)) :
    (Fin NUM_AGENTS → Obs) × List (StepOutput × WState) :=
  (resetObs (oracleAt g pos),
   runGlobalSteps g (pos + 2) (resetState (oracleAt g pos)) moves)

/-- Invariant carried through the trajectory: at most `NUM_REQUESTS` waiting
points and no target index below `-1`. -/
def InvS (s : WState) : Prop :=
  waitingCountF s.pickupPointTargets ≤ NUM_REQUESTS ∧ ∀ j, -1 ≤ s.pickupPointTargets j

/-! ## Concrete oracles, states and inputs used in witnesses and counterexamples -/

/-- Identity oracle: `np.random.choice` happening to keep the input order. -/
def rngId : RandomOracle := ⟨id, id⟩

/-- Stream whose draw `2` (the first `choice` of a second `reset`) picks the
last two pickup points instead of the first two. -/
def streamCE : GlobalStream := fun n =>
  if n = 2 then ⟨fun l => l.rotate 2, id⟩ else ⟨id, id⟩

/-- Stream that always keeps the input order. -/
def constStream : GlobalStream := fun _ => rngId

/-- Physics leaves every agent at its initial position. -/
def inpId : StepInput := ⟨agentInitialPositions, rngId⟩

/-- Agent 0 standing on pickup point 0, which waits (target 5) with 100 ticks
left; agent 1 far away; physics keeps everyone in place. -/
def sC2 : WState :=
  { agentPositions := ![(9/2, 9/2), (7, 7)]
    agentDeliveryTargets := fun _ => -1
    deliveryPointPositions := deliveryPointPositionsInit
    pickupPointPositions := pickupPointPositionsInit
    pickupPointTargets := ![5, -1, -1, -1]
    pickupPointTimers := ![100, -1, -1, -1]
    episodeTime := 0 }

/-- Same situation as `sC2` but with 200 ticks left on the waiting point. -/
def sC2b : WState :=
  { sC2 with pickupPointTimers := ![200, -1, -1, -1] }

def inpC2 : StepInput := ⟨![(9/2, 9/2), (7, 7)], rngId⟩

/-- Both agents strictly within tolerance of waiting pickup point 0. -/
def sC3 : WState :=
  { agentPositions := ![(9/2, 9/2), (23/5, 9/2)]
    agentDeliveryTargets := fun _ => -1
    deliveryPointPositions := deliveryPointPositionsInit
    pickupPointPositions := pickupPointPositionsInit
    pickupPointTargets := ![5, -1, -1, -1]
    pickupPointTimers := ![100, -1, -1, -1]
    episodeTime := 0 }

def inpC3 : StepInput := ⟨![(9/2, 9/2), (23/5, 9/2)], rngId⟩

/-- Two waiting pickup points `0.1` apart, agent 0 strictly within tolerance of
both and nearer to point 1. -/
def sC4a : WState :=
  { agentPositions := ![(231/50, 9/2), (7, 7)]
    agentDeliveryTargets := fun _ => -1
    deliveryPointPositions := deliveryPointPositionsInit
    pickupPointPositions := ![(9/2, 9/2), (23/5, 9/2), (11/2, 11/2), (9/2, 11/2)]
    pickupPointTargets := ![2, 3, -1, -1]
    pickupPointTimers := ![100, 100, -1, -1]
    episodeTime := 0 }

/-- As `sC4a` but point 0 inactive: the agent is within tolerance of waiting
point 1 while the lower-indexed inactive point 0 is also within tolerance. -/
def sC4b : WState :=
  { sC4a with
    pickupPointTargets := ![-1, 3, -1, -1]
    pickupPointTimers := ![-1, 100, -1, -1] }

def inpC4 : StepInput := ⟨![(231/50, 9/2), (7, 7)], rngId⟩

/-- Agent 0 carrying delivery target 0 and agent 1 carrying target 3, both away
from every pickup and delivery point. -/
def sC5 : WState :=
  { agentPositions := ![(3, 3), (7, 7)]
    agentDeliveryTargets := ![0, 3]
    deliveryPointPositions := deliveryPointPositionsInit
    pickupPointPositions := pickupPointPositionsInit
    pickupPointTargets := fun _ => -1
    pickupPointTimers := fun _ => -1
    episodeTime := 0 }

def inpC5 : StepInput := ⟨![(3, 3), (7, 7)], rngId⟩

/-- Agent 0 exactly at distance `PICKUP_POSITION_TOLERANCE` from waiting pickup
point 0, agent 1 carrying target 0 exactly at distance
`DELIVERY_POSITION_TOLERANCE` from delivery point 0. -/
def sC8 : WState :=
  { agentPositions := ![(24/5, 9/2), (19/5, 3/2)]
    agentDeliveryTargets := ![-1, 0]
    deliveryPointPositions := deliveryPointPositionsInit
    pickupPointPositions := pickupPointPositionsInit
    pickupPointTargets := ![5, -1, -1, -1]
    pickupPointTimers := ![100, -1, -1, -1]
    episodeTime := 0 }

def inpC8 : StepInput := ⟨![(24/5, 9/2), (19/5, 3/2)], rngId⟩

/-- A state in which pickup point 0 sits on top of delivery point 0 and waits
with target 0, and agent 0 stands there: the agent claims and immediately
delivers in the same tick. -/
def sC10 : WState :=
  { agentPositions := ![(7/2, 3/2), (7, 7)]
    agentDeliveryTargets := fun _ => -1
    deliveryPointPositions := deliveryPointPositionsInit
    pickupPointPositions := ![(7/2, 3/2), (11/2, 9/2), (11/2, 11/2), (9/2, 11/2)]
    pickupPointTargets := ![0, -1, -1, -1]
    pickupPointTimers := ![100, -1, -1, -1]
    episodeTime := 0 }

def inpC10 : StepInput := ⟨![(7/2, 3/2), (7, 7)], rngId⟩

/-! ## Helper lemmas about `setAll`, filters and `find?` -/

theorem setAll_cons {n : ℕ} {α : Type} (f : Fin n → α) (p : Fin n × α)
    (rest : List (Fin n × α)) :
    setAll f (p :: rest) = setAll (Function.update f p.1 p.2) rest := rfl

theorem setAll_eq_of_not_mem {n : ℕ} {α : Type} :
    ∀ (pairs : List (Fin n × α)) (f : Fin n → α) (j : Fin n),
      j ∉ pairs.map Prod.fst → setAll f pairs j = f j := by
  intro pairs
  induction pairs with
  | nil => intro f j _; rfl
  | cons p rest ih =>
    intro f j hj
    simp only [List.map_cons, List.mem_cons, not_or] at hj
    rw [setAll_cons, ih _ j hj.2]
    exact Function.update_noteq hj.1 _ _

theorem setAll_eq_of_mem {n : ℕ} {α : Type} :
    ∀ (pairs : List (Fin n × α)) (f : Fin n → α) (j : Fin n) (v : α),
      (pairs.map Prod.fst).Nodup → (j, v) ∈ pairs → setAll f pairs j = v := by
  intro pairs
  induction pairs with
  | nil => intro f j v _ h; simp at h
  | cons p rest ih =>
    intro f j v hnd hmem
    simp only [List.map_cons, List.nodup_cons] at hnd
    rw [setAll_cons]
    rcases List.mem_cons.mp hmem with h | h
    · cases h.symm
      rw [setAll_eq_of_not_mem rest _ j hnd.1]
      exact Function.update_same _ _ _
    · exact ih _ j v hnd.2 h

theorem setAll_cases {n : ℕ} {α : Type} :
    ∀ (pairs : List (Fin n × α)) (f : Fin n → α) (j : Fin n),
      setAll f pairs j = f j ∨ ∃ p ∈ pairs, p.1 = j ∧ setAll f pairs j = p.2 := by
  intro pairs
  induction pairs with
  | nil => intro f j; left; rfl
  | cons p rest ih =>
    intro f j
    rw [setAll_cons]
    rcases ih (Function.update f p.1 p.2) j with h | ⟨q, hq, hq1, hq2⟩
    · by_cases hpj : p.1 = j
      · right
        exact ⟨p, List.mem_cons_self _ _, hpj,
          by rw [h, ← hpj, Function.update_same]⟩
      · left
        rw [h]
        exact Function.update_noteq (Ne.symm hpj) _ _
    · right
      exact ⟨q, List.mem_cons_of_mem _ hq, hq1, hq2⟩

theorem length_filter_mono {α : Type} :
    ∀ (l : List α) (p q : α → Bool), (∀ a ∈ l, p a = true → q a = true) →
      (l.filter p).length ≤ (l.filter q).length := by
  intro l
  induction l with
  | nil => intro p q _; simp
  | cons a l ih =>
    intro p q h
    have ht := ih p q fun b hb hpb => h b (List.mem_cons_of_mem _ hb) hpb
    by_cases hp : p a = true
    · have hq := h a (List.mem_cons_self _ _) hp
      simp only [List.filter_cons, hp, hq, if_true, List.length_cons]
      omega
    · have hp' : p a = false := by simpa using hp
      cases hq : q a <;> simp [List.filter_cons, hp', hq] <;> omega

theorem length_filter_add_not {α : Type} :
    ∀ (l : List α) (p : α → Bool),
      (l.filter p).length + (l.filter fun a => !(p a)).length = l.length := by
  intro l
  induction l with
  | nil => intro p; simp
  | cons a l ih =>
    intro p
    have ht := ih p
    cases hp : p a <;> simp [List.filter_cons, hp] <;> omega

theorem length_filter_or_disjoint {α : Type} :
    ∀ (l : List α) (r p q : α → Bool),
      (∀ a ∈ l, r a = (p a || q a)) → (∀ a ∈ l, p a = true → q a = false) →
      (l.filter r).length = (l.filter p).length + (l.filter q).length := by
  intro l
  induction l with
  | nil => intro r p q _ _; simp
  | cons a l ih =>
    intro r p q hr hd
    have ht := ih r p q (fun b hb => hr b (List.mem_cons_of_mem _ hb))
      (fun b hb => hd b (List.mem_cons_of_mem _ hb))
    have hra := hr a (List.mem_cons_self _ _)
    by_cases hp : p a = true
    · have hq : q a = false := hd a (List.mem_cons_self _ _) hp
      have hra' : r a = true := by simp [hra, hp, hq]
      simp [List.filter_cons, hp, hq, hra']
      omega
    · have hp' : p a = false := by simpa using hp
      cases hq : q a
      · have hra' : r a = false := by simp [hra, hp', hq]
        simp [List.filter_cons, hp', hq, hra']
        omega
      · have hra' : r a = true := by simp [hra, hp', hq]
        simp [List.filter_cons, hp', hq, hra']
        omega

theorem length_filter_mem {α : Type} [DecidableEq α] (l m : List α)
    (hl : l.Nodup) (hm : m.Nodup) (hsub : ∀ a ∈ m, a ∈ l) :
    (l.filter fun a => decide (a ∈ m)).length = m.length := by
  have hperm : (l.filter fun a => decide (a ∈ m)).Perm m := by
    apply (List.perm_ext_iff_of_nodup (hl.filter _) hm).mpr
    intro a
    simp only [List.mem_filter, decide_eq_true_eq]
    exact ⟨fun h => h.2, fun h => ⟨hsub a h, h⟩⟩
  exact hperm.length_eq

theorem exists_snd_mem_zip {α β : Type} :
    ∀ (pts : List α) (vals : List β), pts.length ≤ vals.length →
      ∀ j ∈ pts, ∃ v, (j, v) ∈ pts.zip vals ∧ v ∈ vals := by
  intro pts
  induction pts with
  | nil => intro vals _ j hj; simp at hj
  | cons a pts ih =>
    intro vals hlen j hj
    cases vals with
    | nil => simp at hlen
    | cons b vals =>
      rcases List.mem_cons.mp hj with h | h
      · exact ⟨b, by simp [h], List.mem_cons_self _ _⟩
      · obtain ⟨v, hv1, hv2⟩ := ih vals (by simpa using hlen) j h
        exact ⟨v, List.mem_cons_of_mem _ hv1, List.mem_cons_of_mem _ hv2⟩

theorem find?_min_of_pairwise {α : Type} (R : α → α → Prop) :
    ∀ (l : List α) (p : α → Bool) (a : α), l.Pairwise R → l.find? p = some a →
      ∀ b ∈ l, p b = true → a = b ∨ R a b := by
  intro l
  induction l with
  | nil => intro p a _ h; simp at h
  | cons x l ih =>
    intro p a hp hf b hb hpb
    rcases List.pairwise_cons.mp hp with ⟨hx, hl⟩
    by_cases hpx : p x = true
    · rw [List.find?_cons_of_pos _ hpx] at hf
      cases Option.some_inj.mp hf
      rcases List.mem_cons.mp hb with h | h
      · exact Or.inl h.symm
      · exact Or.inr (hx b h)
    · rw [List.find?_cons_of_neg _ (by simpa using hpx)] at hf
      rcases List.mem_cons.mp hb with h | h
      · exact absurd (h ▸ hpb) (by simpa using hpx)
      · exact ih p a hl hf b h hpb

/-! ## Invariant lemmas for the waiting-request count -/

theorem requestsOf_length (ppos : Fin NUM_PICKUP_POINTS → Vec2)
    (t : Fin NUM_PICKUP_POINTS → ℤ) (d : Fin NUM_DELIVERY_POINTS → Vec2) :
    (requestsOf ppos t d).length = waitingCountF t := by
  simp [requestsOf, waitingCountF]

theorem waiting_afterExpiry_le (s : WState) :
    waitingCountF (targetsAfterExpiry s) ≤ waitingCountF s.pickupPointTargets := by
  apply length_filter_mono
  intro j _ hj
  rw [decide_eq_true_eq] at hj ⊢
  unfold targetsAfterExpiry at hj
  by_cases h : expiredMask s j = true
  · rw [if_pos h] at hj; omega
  · rwa [if_neg h] at hj

theorem waiting_afterClaims_le (s : WState) (pos : Fin NUM_AGENTS → Vec2) :
    waitingCountF (pickupTargetsAfterClaims s pos) ≤ waitingCountF (targetsAfterExpiry s) := by
  apply length_filter_mono
  intro j _ hj
  rw [decide_eq_true_eq] at hj ⊢
  unfold pickupTargetsAfterClaims at hj
  by_cases h : claimedMask s pos j = true
  · rw [if_pos h] at hj; omega
  · rwa [if_neg h] at hj

theorem targets_ge_afterClaims (s : WState) (pos : Fin NUM_AGENTS → Vec2)
    (h : ∀ j, -1 ≤ s.pickupPointTargets j) :
    ∀ j, -1 ≤ pickupTargetsAfterClaims s pos j := by
  intro j
  unfold pickupTargetsAfterClaims
  split
  · omega
  · unfold targetsAfterExpiry
    split
    · omega
    · exact h j

theorem beq_neg_one_eq_not_gt (x : ℤ) (h : -1 ≤ x) :
    (x == -1) = !(decide (x > -1)) := by
  by_cases hx : x = -1
  · simp [hx]
  · have hgt : x > -1 := lt_of_le_of_ne h (Ne.symm hx)
    simp [hx, hgt]

theorem waiting_add_inactive (s : WState) (pos : Fin NUM_AGENTS → Vec2)
    (hge : ∀ j, -1 ≤ pickupTargetsAfterClaims s pos j) :
    waitingCountF (pickupTargetsAfterClaims s pos) + (inactiveAfterClaims s pos).length
      = NUM_PICKUP_POINTS := by
  have h := length_filter_add_not (List.finRange NUM_PICKUP_POINTS)
    (fun j => decide (pickupTargetsAfterClaims s pos j > -1))
  rw [List.length_finRange] at h
  have hfil : (List.finRange NUM_PICKUP_POINTS).filter
        (fun j => pickupTargetsAfterClaims s pos j == -1)
      = (List.finRange NUM_PICKUP_POINTS).filter
        (fun a => !(decide (pickupTargetsAfterClaims s pos a > -1))) := by
    apply List.filter_congr
    intro j _
    exact beq_neg_one_eq_not_gt _ (hge j)
  rw [waitingCountF, inactiveAfterClaims, hfil]
  exact h

theorem waitingCountF_setAll (base : Fin NUM_PICKUP_POINTS → ℤ)
    (pts : List (Fin NUM_PICKUP_POINTS)) (vals : List ℤ)
    (hnd : pts.Nodup) (hlen : pts.length ≤ vals.length)
    (hvals : ∀ v ∈ vals, 0 ≤ v) (hbase : ∀ j ∈ pts, base j = -1) :
    waitingCountF (setAll base (pts.zip vals)) = waitingCountF base + pts.length := by
  have hfst : (pts.zip vals).map Prod.fst = pts := List.map_fst_zip _ _ hlen
  have hcount := length_filter_or_disjoint (List.finRange NUM_PICKUP_POINTS)
    (fun j => decide (setAll base (pts.zip vals) j > -1))
    (fun j => decide (base j > -1))
    (fun j => decide (j ∈ pts)) ?_ ?_
  · rw [waitingCountF, waitingCountF, hcount]
    congr 1
    exact length_filter_mem _ _ (List.nodup_finRange _) hnd fun a _ => List.mem_finRange a
  · intro j _
    by_cases hj : j ∈ pts
    · obtain ⟨v, hv, hvmem⟩ := exists_snd_mem_zip pts vals hlen j hj
      have heq : setAll base (pts.zip vals) j = v :=
        setAll_eq_of_mem _ _ _ _ (by rw [hfst]; exact hnd) hv
      have hv0 := hvals v hvmem
      have hvt : decide (v > -1) = true := by rw [decide_eq_true_eq]; omega
      show decide (setAll base (pts.zip vals) j > -1)
          = (decide (base j > -1) || decide (j ∈ pts))
      rw [heq, hvt, hbase j hj]
      simp [hj]
    · have heq : setAll base (pts.zip vals) j = base j :=
        setAll_eq_of_not_mem _ _ _ (by rw [hfst]; exact hj)
      show decide (setAll base (pts.zip vals) j > -1)
          = (decide (base j > -1) || decide (j ∈ pts))
      rw [heq]
      simp [hj]
  · intro j _ hpj
    have hpj' : base j > -1 := by simpa using hpj
    show decide (j ∈ pts) = false
    rw [decide_eq_false_iff_not]
    intro hq
    rw [hbase j hq] at hpj'
    omega

theorem setAll_zip_ge (base : Fin NUM_PICKUP_POINTS → ℤ) (pts : List (Fin NUM_PICKUP_POINTS))
    (vals : List ℤ) (h1 : ∀ j, -1 ≤ base j) (h2 : ∀ v ∈ vals, -1 ≤ v) :
    ∀ j, -1 ≤ setAll base (pts.zip vals) j := by
  intro j
  rcases setAll_cases (pts.zip vals) base j with h | ⟨⟨a, b⟩, hp, _, hpv⟩
  · rw [h]; exact h1 j
  · rw [hpv]
    exact h2 b (List.of_mem_zip hp).2

theorem waiting_afterRegen (s : WState) (pos : Fin NUM_AGENTS → Vec2) (rng : RandomOracle)
    (hrng : rng.Valid) (hw : waitingCountF s.pickupPointTargets ≤ NUM_REQUESTS)
    (hge : ∀ j, -1 ≤ s.pickupPointTargets j) :
    waitingCountF (pickupTargetsAfterRegen s pos rng) = NUM_REQUESTS
    ∧ ∀ j, -1 ≤ pickupTargetsAfterRegen s pos rng j := by
  have eNR : NUM_REQUESTS = 2 := rfl
  have eNP : NUM_PICKUP_POINTS = 4 := rfl
  have eND : NUM_DELIVERY_POINTS = 16 := rfl
  have hge3 := targets_ge_afterClaims s pos hge
  have hw3 : waitingCountF (pickupTargetsAfterClaims s pos) ≤ NUM_REQUESTS :=
    le_trans (waiting_afterClaims_le s pos) (le_trans (waiting_afterExpiry_le s) hw)
  have hsum := waiting_add_inactive s pos hge3
  have hpermP := hrng.1 (inactiveAfterClaims s pos)
  have hLnodup : (inactiveAfterClaims s pos).Nodup := (List.nodup_finRange _).filter _
  have hpermlen : (rng.permutePickups (inactiveAfterClaims s pos)).length
      = (inactiveAfterClaims s pos).length := hpermP.length_eq
  have hK : (regenCount s pos).toNat
      = NUM_REQUESTS - waitingCountF (pickupTargetsAfterClaims s pos) := by
    rw [regenCount]
    omega
  have hKle : (regenCount s pos).toNat ≤ (inactiveAfterClaims s pos).length := by
    rw [hK]
    omega
  have hptslen : (regenPoints s pos rng).length = (regenCount s pos).toNat := by
    rw [regenPoints, List.length_take, hpermlen]
    omega
  have hptsNodup : (regenPoints s pos rng).Nodup :=
    List.Nodup.sublist (List.take_sublist _ _) (hpermP.nodup_iff.mpr hLnodup)
  have hsubP : ∀ j ∈ regenPoints s pos rng, j ∈ inactiveAfterClaims s pos := by
    intro j hj
    exact hpermP.mem_iff.mp ((List.take_sublist _ _).subset hj)
  have hbase : ∀ j ∈ regenPoints s pos rng, pickupTargetsAfterClaims s pos j = -1 := by
    intro j hj
    have := List.of_mem_filter (hsubP j hj)
    simpa using this
  have htlen : (regenTargets s pos rng).length = (regenCount s pos).toNat := by
    rw [regenTargets, List.length_take, (hrng.2 (List.finRange NUM_DELIVERY_POINTS)).length_eq,
      List.length_finRange]
    omega
  have hvals0 : ∀ v ∈ (regenTargets s pos rng).map fun t => (t.val : ℤ), 0 ≤ v := by
    intro v hv
    obtain ⟨t, _, rfl⟩ := List.mem_map.mp hv
    exact Int.natCast_nonneg _
  have hlen2 : (regenPoints s pos rng).length
      ≤ ((regenTargets s pos rng).map fun t => (t.val : ℤ)).length := by
    rw [hptslen, List.length_map, htlen]
  constructor
  · rw [pickupTargetsAfterRegen,
      waitingCountF_setAll _ _ _ hptsNodup hlen2 hvals0 hbase, hptslen, hK]
    omega
  · intro j
    rw [pickupTargetsAfterRegen]
    exact setAll_zip_ge _ _ _ hge3
      (fun v hv => by have := hvals0 v hv; omega) j

theorem resetState_inv (rng : RandomOracle) (hrng : rng.Valid) :
    waitingCountF (resetState rng).pickupPointTargets = NUM_REQUESTS ∧ InvS (resetState rng) := by
  have hperm := hrng.1 (List.finRange NUM_PICKUP_POINTS)
  have hptslen : ((rng.permutePickups (List.finRange NUM_PICKUP_POINTS)).take
      NUM_REQUESTS).length = NUM_REQUESTS := by
    rw [List.length_take, hperm.length_eq, List.length_finRange]
    decide
  have hptsNodup : ((rng.permutePickups (List.finRange NUM_PICKUP_POINTS)).take
      NUM_REQUESTS).Nodup :=
    List.Nodup.sublist (List.take_sublist _ _) (hperm.nodup_iff.mpr (List.nodup_finRange _))
  have hvals0 : ∀ v ∈ ((rng.permuteTargets (List.finRange NUM_DELIVERY_POINTS)).take
      NUM_REQUESTS).map fun t => (t.val : ℤ), 0 ≤ v := by
    intro v hv
    obtain ⟨t, _, rfl⟩ := List.mem_map.mp hv
    exact Int.natCast_nonneg _
  have hvalslen : (((rng.permuteTargets (List.finRange NUM_DELIVERY_POINTS)).take
      NUM_REQUESTS).map fun t => (t.val : ℤ)).length = NUM_REQUESTS := by
    rw [List.length_map, List.length_take,
      (hrng.2 (List.finRange NUM_DELIVERY_POINTS)).length_eq, List.length_finRange]
    decide
  have hzero : waitingCountF (fun _ : Fin NUM_PICKUP_POINTS => (-1 : ℤ)) = 0 := by decide
  have hwc := waitingCountF_setAll (fun _ => (-1 : ℤ)) _ _ hptsNodup
    (by rw [hptslen, hvalslen]) hvals0 (fun j _ => rfl)
  refine ⟨?_, ?_, ?_⟩
  · show waitingCountF (setAll (fun _ => (-1 : ℤ)) _) = NUM_REQUESTS
    rw [hwc, hzero, hptslen]
    omega
  · show waitingCountF (setAll (fun _ => (-1 : ℤ)) _) ≤ NUM_REQUESTS
    rw [hwc, hzero, hptslen]
    omega
  · intro j
    show -1 ≤ setAll (fun _ => (-1 : ℤ)) _ j
    exact setAll_zip_ge _ _ _ (fun _ => le_refl _)
      (fun v hv => by have := hvals0 v hv; omega) j

theorem step_establishes_inv (s : WState) (inp : StepInput) (hrng : inp.rng.Valid)
    (hInv : InvS s) :
    waitingCountF (stepState s inp).pickupPointTargets = NUM_REQUESTS
    ∧ InvS (stepState s inp)
    ∧ ∀ i, ((stepOutput s inp).observations i).requests.length = NUM_REQUESTS := by
  obtain ⟨h1, h2⟩ := waiting_afterRegen s inp.newAgentPositions inp.rng hrng hInv.1 hInv.2
  refine ⟨h1, ⟨le_of_eq h1, h2⟩, ?_⟩
  intro i
  show (requestsOf s.pickupPointPositions
    (pickupTargetsAfterRegen s inp.newAgentPositions inp.rng) s.deliveryPointPositions).length = _
  rw [requestsOf_length]
  exact h1

theorem runTraceS_inv :
    ∀ (inputs : List StepInput) (s : WState), InvS s →
      (∀ inp ∈ inputs, inp.rng.Valid) →
      ∀ pr ∈ runTraceS s inputs,
        waitingCountF pr.2.pickupPointTargets = NUM_REQUESTS ∧
        ∀ i, (pr.1.observations i).requests.length = NUM_REQUESTS := by
  intro inputs
  induction inputs with
  | nil => intro s _ _ pr hpr; simp [runTraceS] at hpr
  | cons inp rest ih =>
    intro s hInv hv pr hpr
    obtain ⟨h1, h2, h3⟩ := step_establishes_inv s inp (hv inp (List.mem_cons_self _ _)) hInv
    rw [runTraceS] at hpr
    rcases List.mem_cons.mp hpr with h | h
    · subst h; exact ⟨h1, h3⟩
    · exact ih (stepState s inp) h2 (fun i hi => hv i (List.mem_cons_of_mem _ hi)) pr h

/-! ## Dones along a trajectory -/

theorem runTraceS_dones :
    ∀ (inputs : List StepInput) (s : WState) (k : ℕ)
      (hk : k < (runTraceS s inputs).length),
      ((runTraceS s inputs).get ⟨k, hk⟩).1.allDone
          = decide (s.episodeTime + k + 1 ≥ MAX_EPISODE_TIME)
      ∧ ∀ i, ((runTraceS s inputs).get ⟨k, hk⟩).1.agentDones i
          = decide (s.episodeTime + k + 1 ≥ MAX_EPISODE_TIME) := by
  intro inputs
  induction inputs with
  | nil => intro s k hk; simp [runTraceS] at hk
  | cons inp rest ih =>
    intro s k hk
    cases k with
    | zero => exact ⟨rfl, fun i => rfl⟩
    | succ k =>
      have hk' : k < (runTraceS (stepState s inp) rest).length := by
        have : (runTraceS s (inp :: rest)).length
            = (runTraceS (stepState s inp) rest).length + 1 := rfl
        omega
      have h := ih (stepState s inp) k hk'
      have heq : (stepState s inp).episodeTime + k + 1 = s.episodeTime + (k + 1) + 1 := by
        show s.episodeTime + 1 + k + 1 = s.episodeTime + (k + 1) + 1
        omega
      rw [heq] at h
      exact h

/-! ## The claims -/

/-- C1: after every call to `step` in any trajectory from `reset`, exactly
`NUM_REQUESTS` pickup points are Waiting (`target > -1`), and every agent's
returned observation has exactly `NUM_REQUESTS` request rows: expiry and
claims may reduce the count during the tick, but regeneration restores it
before the tick's observations are built. -/
theorem C1_waiting_requests_invariant :
    ∀ (rng0 : RandomOracle) (inputs : List StepInput),
      rng0.Valid → (∀ inp ∈ inputs, inp.rng.Valid) →
      ∀ pr ∈ runTraceS (resetState rng0) inputs,
        waitingCountF pr.2.pickupPointTargets = NUM_REQUESTS ∧
        ∀ i, (pr.1.observations i).requests.length = NUM_REQUESTS :=
  fun rng0 inputs h0 hv =>
    runTraceS_inv inputs (resetState rng0) (resetState_inv rng0 h0).2 hv

/-- C7: in any trajectory from `reset`, the done flags of the `k`-th `step`
call (0-based: call number `k + 1`) — per-agent and `__all__` alike — are
`true` exactly when `k + 1 ≥ MAX_EPISODE_TIME`: all `false` on every earlier
call, all `true` from call `MAX_EPISODE_TIME` on, and no other condition is
consulted. -/
theorem C7_done_flags :
    ∀ (rng0 : RandomOracle) (inputs : List StepInput) (k : ℕ)
      (hk : k < (runTraceS (resetState rng0) inputs).length),
      ((runTraceS (resetState rng0) inputs).get ⟨k, hk⟩).1.allDone
          = decide (k + 1 ≥ MAX_EPISODE_TIME)
      ∧ ∀ i, ((runTraceS (resetState rng0) inputs).get ⟨k, hk⟩).1.agentDones i
          = decide (k + 1 ≥ MAX_EPISODE_TIME) := by
  intro rng0 inputs k hk
  have h := runTraceS_dones inputs (resetState rng0) k hk
  have heq : (resetState rng0).episodeTime + k + 1 = k + 1 := by
    show 0 + k + 1 = k + 1
    omega
  rw [heq] at h
  exact h

/-- C9: `step` never writes the pickup-point or delivery-point position
arrays: they are identical before and after every call. -/
theorem C9_point_positions_frame :
    ∀ (s : WState) (inp : StepInput),
      (stepState s inp).pickupPointPositions = s.pickupPointPositions ∧
      (stepState s inp).deliveryPointPositions = s.deliveryPointPositions :=
  fun _ _ => ⟨rfl, rfl⟩

/-- C10: every returned reward equals `PICKUP_REWARD` times the claim
indicator plus `DELIVERY_REWARD` times the delivery indicator, hence lies in
`{0, 1, 2}` and is never negative; a same-tick claim-and-delivery yields
`2`, which exceeds the declared `reward_range` upper bound of `1`. -/
theorem C10_reward_range :
    ∀ (s : WState) (inp : StepInput) (i : Fin NUM_AGENTS),
      (stepOutput s inp).rewards i
          = PICKUP_REWARD * (if newDeliveringMask s inp.newAgentPositions i then (1 : ℚ) else 0)
            + DELIVERY_REWARD * (if deliveredMask s inp.newAgentPositions i then (1 : ℚ) else 0)
      ∧ 0 ≤ (stepOutput s inp).rewards i
      ∧ ((stepOutput s inp).rewards i = 0 ∨ (stepOutput s inp).rewards i = 1
          ∨ (stepOutput s inp).rewards i = 2)
      ∧ (newDeliveringMask s inp.newAgentPositions i = true →
          deliveredMask s inp.newAgentPositions i = true →
          (stepOutput s inp).rewards i = 2)
      ∧ reward_range.2 < 2 := by
  intro s inp i
  have hr : (stepOutput s inp).rewards i = stepRewards s inp.newAgentPositions i := rfl
  rw [hr]
  unfold stepRewards
  cases hm : newDeliveringMask s inp.newAgentPositions i <;>
    cases hd : deliveredMask s inp.newAgentPositions i
  all_goals simp [hm, hd, PICKUP_REWARD, DELIVERY_REWARD, reward_range]
  all_goals norm_num

/-- C2 (amended): the reward returned by `WarehouseContinuous.step` is the
flat `PICKUP_REWARD` if the agent claimed a pickup this tick plus the flat
`DELIVERY_REWARD` if it completed a delivery this tick; there is no
collision-penalty term and no dependence on the remaining wait time at the
moment of the claim (states with the same claim/delivery events yield the
same reward), and no clipping is applied. -/
theorem C2_reward_formula_amended :
    ∀ (s : WState) (inp : StepInput) (i : Fin NUM_AGENTS),
      (stepOutput s inp).rewards i
          = (if newDeliveringMask s inp.newAgentPositions i then PICKUP_REWARD else 0)
            + (if deliveredMask s inp.newAgentPositions i then DELIVERY_REWARD else 0)
      ∧ ∀ (s' : WState) (inp' : StepInput) (i' : Fin NUM_AGENTS),
          newDeliveringMask s' inp'.newAgentPositions i'
              = newDeliveringMask s inp.newAgentPositions i →
          deliveredMask s' inp'.newAgentPositions i'
              = deliveredMask s inp.newAgentPositions i →
          (stepOutput s' inp').rewards i' = (stepOutput s inp).rewards i := by
  intro s inp i
  refine ⟨rfl, ?_⟩
  intro s' inp' i' h1 h2
  show stepRewards s' inp'.newAgentPositions i' = stepRewards s inp.newAgentPositions i
  unfold stepRewards
  rw [h1, h2]

/-- C3 (amended): when several agents simultaneously qualify for the same
Waiting pickup point (each within tolerance, available, with that point as
its `argmax` candidate), the code gives the claim to every one of them: each
such agent's `delivery_target` is set to the point's target and each
receives the pickup reward; the point leaves `Waiting` once. -/
theorem C3_simultaneous_claim_amended :
    ∀ (s : WState) (pos : Fin NUM_AGENTS → Vec2) (i₁ i₂ : Fin NUM_AGENTS),
      newDeliveringMask s pos i₁ = true → newDeliveringMask s pos i₂ = true →
      pickupCandidate pos s.pickupPointPositions i₁
          = pickupCandidate pos s.pickupPointPositions i₂ →
      agentTargetsAfterPickup s pos i₁
          = targetsAfterExpiry s (pickupCandidate pos s.pickupPointPositions i₁)
      ∧ agentTargetsAfterPickup s pos i₂
          = targetsAfterExpiry s (pickupCandidate pos s.pickupPointPositions i₁)
      ∧ pickupTargetsAfterClaims s pos (pickupCandidate pos s.pickupPointPositions i₁) = -1
      ∧ PICKUP_REWARD ≤ stepRewards s pos i₁
      ∧ PICKUP_REWARD ≤ stepRewards s pos i₂ := by
  intro s pos i₁ i₂ h1 h2 hc
  have hrew : ∀ i, newDeliveringMask s pos i = true → PICKUP_REWARD ≤ stepRewards s pos i := by
    intro i hi
    unfold stepRewards
    rw [if_pos hi]
    have : (0 : ℚ) ≤ if deliveredMask s pos i = true then DELIVERY_REWARD else 0 := by
      split
      · norm_num [DELIVERY_REWARD]
      · exact le_refl 0
    linarith
  refine ⟨?_, ?_, ?_, hrew i₁ h1, hrew i₂ h2⟩
  · unfold agentTargetsAfterPickup
    rw [if_pos h1]
  · unfold agentTargetsAfterPickup
    rw [if_pos h2, ← hc]
  · unfold pickupTargetsAfterClaims
    have hcl : claimedMask s pos (pickupCandidate pos s.pickupPointPositions i₁) = true := by
      unfold claimedMask
      rw [List.any_eq_true]
      exact ⟨i₁, List.mem_finRange _, by rw [h1]; simp⟩
    rw [if_pos hcl]

/-- C4 (amended): an agent's candidate is the lowest-indexed pickup point
strictly within tolerance, regardless of that point's state or distance; the
agent claims it iff the agent is available and that candidate is Waiting.
Hence with several Waiting points in range the lowest-indexed one — not the
nearest — is claimed, and an agent within tolerance of a Waiting point
claims nothing when a lower-indexed non-Waiting point is also within
tolerance. -/
theorem C4_lowest_index_claim_amended :
    ∀ (s : WState) (pos : Fin NUM_AGENTS → Vec2) (i : Fin NUM_AGENTS),
      (newDeliveringMask s pos i = true →
        collides pos s.pickupPointPositions i
            (pickupCandidate pos s.pickupPointPositions i) = true
        ∧ (∀ j, collides pos s.pickupPointPositions i j = true →
            pickupCandidate pos s.pickupPointPositions i ≤ j)
        ∧ targetsAfterExpiry s (pickupCandidate pos s.pickupPointPositions i) > -1
        ∧ agentTargetsAfterPickup s pos i
            = targetsAfterExpiry s (pickupCandidate pos s.pickupPointPositions i))
      ∧ (newDeliveringMask s pos i = false →
          agentTargetsAfterPickup s pos i = s.agentDeliveryTargets i)
      ∧ (s.agentDeliveryTargets i = -1 →
          (∃ j, collides pos s.pickupPointPositions i j = true) →
          targetsAfterExpiry s (pickupCandidate pos s.pickupPointPositions i) > -1 →
          newDeliveringMask s pos i = true) := by
  intro s pos i
  refine ⟨?_, ?_, ?_⟩
  · intro h
    have h' := h
    unfold newDeliveringMask at h'
    rw [Bool.and_eq_true, Bool.and_eq_true] at h'
    obtain ⟨⟨hany, _⟩, htgt⟩ := h'
    obtain ⟨j, hjmem, hj⟩ := List.any_eq_true.mp hany
    have hsome : ((List.finRange NUM_PICKUP_POINTS).find?
        (fun j => collides pos s.pickupPointPositions i j)).isSome := by
      rw [List.find?_isSome]
      exact ⟨j, hjmem, hj⟩
    obtain ⟨c, hc⟩ := Option.isSome_iff_exists.mp hsome
    have hcand : pickupCandidate pos s.pickupPointPositions i = c := by
      unfold pickupCandidate
      rw [hc]
      rfl
    refine ⟨?_, ?_, by simpa using htgt, ?_⟩
    · rw [hcand]
      exact List.find?_some hc
    · intro j' hj'
      rw [hcand]
      rcases find?_min_of_pairwise (· < ·) (List.finRange NUM_PICKUP_POINTS) _ c
          (List.pairwise_lt_finRange _) hc j' (List.mem_finRange _) hj' with he | hlt
      · exact le_of_eq he
      · exact le_of_lt hlt
    · unfold agentTargetsAfterPickup
      rw [if_pos h]
  · intro h
    unfold agentTargetsAfterPickup
    rw [if_neg (by simp [h])]
  · intro hav ⟨j, hj⟩ htgt
    unfold newDeliveringMask
    rw [Bool.and_eq_true, Bool.and_eq_true]
    refine ⟨⟨List.any_eq_true.mpr ⟨j, List.mem_finRange _, hj⟩, by simp [hav]⟩, by simpa using htgt⟩

/-- C8: distances exactly at the tolerance do not count — a claim requires a
strictly smaller distance than `PICKUP_POSITION_TOLERANCE` and a delivery a
strictly smaller distance than `DELIVERY_POSITION_TOLERANCE` — and strictly
smaller distances do count.  (Comparisons are stated on squared distances,
equivalent to comparing the Euclidean norm with the nonnegative tolerance.) -/
theorem C8_strict_tolerance :
    ∀ (s : WState) (pos : Fin NUM_AGENTS → Vec2) (i : Fin NUM_AGENTS),
      ((∀ j, PICKUP_POSITION_TOLERANCE ^ 2 ≤ distSq (pos i) (s.pickupPointPositions j)) →
        newDeliveringMask s pos i = false
        ∧ agentTargetsAfterPickup s pos i = s.agentDeliveryTargets i)
      ∧ (DELIVERY_POSITION_TOLERANCE ^ 2 ≤ distSq (pos i)
            (deliveryPosAt s.deliveryPointPositions (agentTargetsAfterPickup s pos i)) →
          deliveredMask s pos i = false
          ∧ agentTargetsAfterDelivery s pos i = agentTargetsAfterPickup s pos i)
      ∧ ∀ j, distSq (pos i) (s.pickupPointPositions j) < PICKUP_POSITION_TOLERANCE ^ 2 →
          collides pos s.pickupPointPositions i j = true := by
  intro s pos i
  refine ⟨?_, ?_, ?_⟩
  · intro h
    have hcol : ∀ j, collides pos s.pickupPointPositions i j = false := by
      intro j
      unfold collides
      rw [decide_eq_false_iff_not]
      exact not_lt.mpr (h j)
    have hany : (List.finRange NUM_PICKUP_POINTS).any
        (fun j => collides pos s.pickupPointPositions i j) = false := by
      simp [List.any_eq_false, hcol]
    have hmask : newDeliveringMask s pos i = false := by
      unfold newDeliveringMask
      rw [hany]
      rfl
    exact ⟨hmask, by unfold agentTargetsAfterPickup; rw [if_neg (by simp [hmask])]⟩
  · intro h
    have hd : deliveredMask s pos i = false := by
      unfold deliveredMask
      have hx : decide (distSq (pos i) (deliveryPosAt s.deliveryPointPositions
          (agentTargetsAfterPickup s pos i)) < DELIVERY_POSITION_TOLERANCE ^ 2) = false := by
        rw [decide_eq_false_iff_not]
        exact not_lt.mpr h
      rw [hx, Bool.and_false]
    exact ⟨hd, by unfold agentTargetsAfterDelivery; rw [if_neg (by simp [hd])]⟩
  · intro j hj
    unfold collides
    rw [decide_eq_true_eq]
    exact hj

theorem run_global_steps_congr :
    ∀ (moves : List (Fin NUM_AGENTS → Vec2)) (g g' : GlobalStream) (pos : ℕ) (s : WState),
      (∀ n, pos ≤ n → n < pos + 2 * moves.length → g n = g' n) →
      runGlobalSteps g pos s moves = runGlobalSteps g' pos s moves := by
  intro moves
  induction moves with
  | nil => intro g g' pos s _; rfl
  | cons m rest ih =>
    intro g g' pos s h
    have hlen : (m :: rest).length = rest.length + 1 := rfl
    have h0 : g pos = g' pos := h pos (le_refl _) (by omega)
    have h1 : g (pos + 1) = g' (pos + 1) := h _ (by omega) (by omega)
    have horacle : oracleAt g pos = oracleAt g' pos := by
      unfold oracleAt
      rw [h0, h1]
    show (stepOutput s ⟨m, oracleAt g pos⟩, stepState s ⟨m, oracleAt g pos⟩)
          :: runGlobalSteps g (pos + 2) (stepState s ⟨m, oracleAt g pos⟩) rest
        = (stepOutput s ⟨m, oracleAt g' pos⟩, stepState s ⟨m, oracleAt g' pos⟩)
          :: runGlobalSteps g' (pos + 2) (stepState s ⟨m, oracleAt g' pos⟩) rest
    rw [horacle]
    congr 1
    exact ih g g' (pos + 2) _ (fun n hn1 hn2 => h n (by omega) (by omega))

/-- C6 (amended): the environment exposes no seed and draws from the
process-global generator; trajectories are reproducible exactly relative to
that generator's state: two runs that start with the global stream in the
same position, agree on the stream values actually consumed, and apply
identical physics outcomes produce identical observation/reward
trajectories. -/
theorem C6_determinism_amended :
    ∀ (g g' : GlobalStream) (pos : ℕ) (moves : List (Fin NUM_AGENTS → Vec2)),
      (∀ n, pos ≤ n → n < pos + 2 + 2 * moves.length → g n = g' n) →
      runFromGlobal g pos moves = runFromGlobal g' pos moves := by
  intro g g' pos moves h
  have h0 : g pos = g' pos := h pos (le_refl _) (by omega)
  have h1 : g (pos + 1) = g' (pos + 1) := h _ (by omega) (by omega)
  have horacle : oracleAt g pos = oracleAt g' pos := by
    unfold oracleAt
    rw [h0, h1]
  unfold runFromGlobal
  rw [horacle]
  exact congrArg _ (run_global_steps_congr moves g g' (pos + 2) _
    (fun n hn1 hn2 => h n (by omega) (by omega)))

/-! ## Oracle validity facts -/

theorem rngId_valid : rngId.Valid :=
  ⟨fun l => List.Perm.refl l, fun l => List.Perm.refl l⟩

theorem streamCE_valid : GlobalStream.Valid streamCE := by
  intro n
  unfold streamCE
  by_cases h : n = 2
  · rw [if_pos h]
    exact ⟨fun l => List.rotate_perm l 2, fun l => List.Perm.refl l⟩
  · rw [if_neg h]
    exact rngId_valid

/-! ## Witnesses and counterexamples (concrete evaluations)

The arithmetic of `ℚ` is `@[irreducible]` in the library; inside this section
it is made semireducible again so that `decide` can evaluate the embedding on
the concrete states above. -/

section ConcreteEvaluations

set_option allowUnsafeReducibility true
attribute [local semireducible] Rat.add Rat.sub Rat.mul Rat.inv

/-- C1 witness: one step from reset with the identity oracle and resting
physics keeps exactly `NUM_REQUESTS` waiting points and request rows. -/
theorem C1_waiting_requests_invariant_witness :
    waitingCountF (stepState (resetState rngId) inpId).pickupPointTargets = NUM_REQUESTS ∧
    ∀ i, ((stepOutput (resetState rngId) inpId).observations i).requests.length
      = NUM_REQUESTS :=
  C1_waiting_requests_invariant rngId [inpId] rngId_valid
    (by intro inp h; rw [List.mem_singleton] at h; rw [h]; exact rngId_valid)
    (stepOutput (resetState rngId) inpId, stepState (resetState rngId) inpId)
    (List.mem_singleton.mpr rfl)

/-- C2 counterexample: agent 0 claims a pickup whose remaining wait time at
the moment of the claim is 99 ticks, yet receives the flat reward `1`, not
`PICKUP_BASE + 99 × PICKUP_TIME_MULTIPLIER` (the repository's values of the
spec's constants, from `src/warehouse.py`), and no collision term exists. -/
theorem C2_reward_formula_counterexample :
    newDeliveringMask sC2 inpC2.newAgentPositions 0 = true
    ∧ decTimers sC2 0 = 99
    ∧ (stepOutput sC2 inpC2).rewards 0 = 1
    ∧ (1 : ℚ) ≠ 0 * COLLISION_REWARD
        + (PICKUP_BASE_REWARD + 99 * PICKUP_TIME_REWARD_MULTIPLIER) :=
  ⟨by decide, by decide, by decide, by decide⟩

/-- C2 witness: two states differing only in the claimed point's remaining
wait time (100 vs 200 ticks) produce the same reward. -/
theorem C2_reward_formula_amended_witness :
    (stepOutput sC2b inpC2).rewards 0 = (stepOutput sC2 inpC2).rewards 0 :=
  (C2_reward_formula_amended sC2 inpC2 0).2 sC2b inpC2 0 (by decide) (by decide)

/-- C3 counterexample: both agents are strictly within tolerance of the same
waiting point 0; the code grants the claim and the pickup reward to BOTH
agents, not only to the lowest-id one — agent 1 also gets target 5 and
reward 1, where the claim says it should receive no claim and no reward. -/
theorem C3_simultaneous_claim_counterexample :
    distSq (inpC3.newAgentPositions 0) (sC3.pickupPointPositions 0)
        < PICKUP_POSITION_TOLERANCE ^ 2
    ∧ distSq (inpC3.newAgentPositions 1) (sC3.pickupPointPositions 0)
        < PICKUP_POSITION_TOLERANCE ^ 2
    ∧ sC3.agentDeliveryTargets 0 = -1 ∧ sC3.agentDeliveryTargets 1 = -1
    ∧ sC3.pickupPointTargets 0 = 5
    ∧ pickupCandidate inpC3.newAgentPositions sC3.pickupPointPositions 0 = 0
    ∧ pickupCandidate inpC3.newAgentPositions sC3.pickupPointPositions 1 = 0
    ∧ (stepState sC3 inpC3).agentDeliveryTargets 0 = 5
    ∧ (stepState sC3 inpC3).agentDeliveryTargets 1 = 5
    ∧ (stepOutput sC3 inpC3).rewards 0 = PICKUP_REWARD
    ∧ (stepOutput sC3 inpC3).rewards 1 = PICKUP_REWARD := by
  refine ⟨by decide, by decide, by decide, by decide, by decide, by decide, by decide,
    by decide, by decide, by decide, by decide⟩

/-- C3 witness: the amended statement instantiated at the two-agents-one-point
state: both agents receive the target of point 0 and at least the pickup
reward, and point 0 leaves Waiting. -/
theorem C3_simultaneous_claim_amended_witness :
    agentTargetsAfterPickup sC3 inpC3.newAgentPositions 0
        = targetsAfterExpiry sC3 (pickupCandidate inpC3.newAgentPositions
            sC3.pickupPointPositions 0)
    ∧ agentTargetsAfterPickup sC3 inpC3.newAgentPositions 1
        = targetsAfterExpiry sC3 (pickupCandidate inpC3.newAgentPositions
            sC3.pickupPointPositions 0)
    ∧ pickupTargetsAfterClaims sC3 inpC3.newAgentPositions
        (pickupCandidate inpC3.newAgentPositions sC3.pickupPointPositions 0) = -1
    ∧ PICKUP_REWARD ≤ stepRewards sC3 inpC3.newAgentPositions 0
    ∧ PICKUP_REWARD ≤ stepRewards sC3 inpC3.newAgentPositions 1 :=
  C3_simultaneous_claim_amended sC3 inpC3.newAgentPositions 0 1
    (by decide) (by decide) (by decide)

/-- C4 counterexample.  Part (a): agent 0 is strictly within tolerance of
waiting points 0 and 1 and strictly nearer to point 1, yet claims point 0
(the lowest index), receiving point 0's target 2 while point 1 stays
waiting.  Part (b): agent 0 is strictly within tolerance of waiting point 1,
but because the lower-indexed point 0 is also within tolerance and inactive,
it claims nothing at all that tick. -/
theorem C4_nearest_claim_counterexample :
    (distSq (inpC4.newAgentPositions 0) (sC4a.pickupPointPositions 1)
        < distSq (inpC4.newAgentPositions 0) (sC4a.pickupPointPositions 0)
    ∧ collides inpC4.newAgentPositions sC4a.pickupPointPositions 0 0 = true
    ∧ collides inpC4.newAgentPositions sC4a.pickupPointPositions 0 1 = true
    ∧ sC4a.pickupPointTargets 0 = 2 ∧ sC4a.pickupPointTargets 1 = 3
    ∧ sC4a.agentDeliveryTargets 0 = -1
    ∧ (stepState sC4a inpC4).agentDeliveryTargets 0 = 2
    ∧ (stepState sC4a inpC4).pickupPointTargets 1 = 3)
    ∧ (collides inpC4.newAgentPositions sC4b.pickupPointPositions 0 1 = true
    ∧ sC4b.pickupPointTargets 1 = 3
    ∧ sC4b.pickupPointTargets 0 = -1
    ∧ sC4b.agentDeliveryTargets 0 = -1
    ∧ newDeliveringMask sC4b inpC4.newAgentPositions 0 = false
    ∧ (stepState sC4b inpC4).agentDeliveryTargets 0 = -1) := by
  refine ⟨⟨by decide, by decide, by decide, by decide, by decide, by decide,
    by decide, by decide⟩, ⟨by decide, by decide, by decide, by decide, by decide, by decide⟩⟩

/-- C4 witness: the amended statement instantiated at the two-points state:
the claimed candidate is within tolerance, is the least such index, is
waiting, and becomes agent 0's target. -/
theorem C4_lowest_index_claim_amended_witness :
    collides inpC4.newAgentPositions sC4a.pickupPointPositions 0
        (pickupCandidate inpC4.newAgentPositions sC4a.pickupPointPositions 0) = true
    ∧ (∀ j, collides inpC4.newAgentPositions sC4a.pickupPointPositions 0 j = true →
        pickupCandidate inpC4.newAgentPositions sC4a.pickupPointPositions 0 ≤ j)
    ∧ targetsAfterExpiry sC4a
        (pickupCandidate inpC4.newAgentPositions sC4a.pickupPointPositions 0) > -1
    ∧ agentTargetsAfterPickup sC4a inpC4.newAgentPositions 0
        = targetsAfterExpiry sC4a
            (pickupCandidate inpC4.newAgentPositions sC4a.pickupPointPositions 0) :=
  (C4_lowest_index_claim_amended sC4a inpC4.newAgentPositions 0).1 (by decide)

/-- C5: evaluation at the failing input.  With agent 0 carrying target 0
(position `(3.5, 1.5)`) and agent 1 carrying target 3 (position
`(8.5, 3.5)`), agent 0's returned `other_delivery_targets` contains agent
0's OWN target row — `np.delete(..., 1, axis=0)` on line 362 removes row 1
for every agent instead of row `i` — while the other two `other_*` arrays
correctly exclude row 0. -/
theorem C5_other_delivery_targets_bug :
    ((stepOutput sC5 inpC5).observations 0).otherDeliveryTargets
        = [((stepOutput sC5 inpC5).observations 0).selfDeliveryTarget]
    ∧ ((stepOutput sC5 inpC5).observations 0).selfDeliveryTarget = (7/2, 3/2)
    ∧ targetPositions sC5.deliveryPointPositions
        (agentTargetsAfterDelivery sC5 inpC5.newAgentPositions) 1 = (17/2, 7/2)
    ∧ ((7/2 : ℚ), (3/2 : ℚ)) ≠ (((17/2 : ℚ), (7/2 : ℚ)) : Vec2)
    ∧ ((stepOutput sC5 inpC5).observations 0).otherPositions = [(7, 7)]
    ∧ ((stepOutput sC5 inpC5).observations 0).otherAvailabilities = [0] := by
  refine ⟨by decide, by decide, by decide, by decide, by decide, by decide⟩

/-- C6 counterexample: `reset` takes no seed and draws from the process
global generator, so calling `reset` twice in the same process — the second
call starting at the stream position where the first one stopped — returns
different initial observations for the very same (absent) seed and the same
(empty) action sequence. -/
theorem C6_determinism_counterexample :
    GlobalStream.Valid streamCE
    ∧ (runFromGlobal streamCE 2 []).1 0 ≠ (runFromGlobal streamCE 0 []).1 0 :=
  ⟨streamCE_valid, by decide⟩

/-- C6 witness: with the whole consumed stream prefix equal, a run reproduces
itself. -/
theorem C6_determinism_amended_witness :
    runFromGlobal constStream 0 [agentInitialPositions]
      = runFromGlobal constStream 0 [agentInitialPositions] :=
  C6_determinism_amended constStream constStream 0 [agentInitialPositions]
    (fun _ _ _ => rfl)

/-- C7 witness: the first step of a fresh episode reports `done = false` for
`__all__` and for every agent (`1 ≥ 800` is false). -/
theorem C7_done_flags_witness :
    ((runTraceS (resetState rngId) [inpId]).get ⟨0, by decide⟩).1.allDone
        = decide (0 + 1 ≥ MAX_EPISODE_TIME)
    ∧ ∀ i, ((runTraceS (resetState rngId) [inpId]).get ⟨0, by decide⟩).1.agentDones i
        = decide (0 + 1 ≥ MAX_EPISODE_TIME) :=
  C7_done_flags rngId [inpId] 0 (by decide)

/-- C8 witness: agent 0 exactly at distance `PICKUP_POSITION_TOLERANCE` from
waiting point 0 triggers no claim; agent 1, carrying target 0 and exactly at
distance `DELIVERY_POSITION_TOLERANCE` from it, triggers no delivery. -/
theorem C8_strict_tolerance_witness :
    (newDeliveringMask sC8 inpC8.newAgentPositions 0 = false
      ∧ agentTargetsAfterPickup sC8 inpC8.newAgentPositions 0
          = sC8.agentDeliveryTargets 0)
    ∧ (deliveredMask sC8 inpC8.newAgentPositions 1 = false
      ∧ agentTargetsAfterDelivery sC8 inpC8.newAgentPositions 1
          = agentTargetsAfterPickup sC8 inpC8.newAgentPositions 1) :=
  ⟨(C8_strict_tolerance sC8 inpC8.newAgentPositions 0).1 (by decide),
   (C8_strict_tolerance sC8 inpC8.newAgentPositions 1).2.1 (by decide)⟩

/-- C10 witness: an agent standing on a waiting pickup point that coincides
with its assigned delivery point claims and delivers in the same tick and
receives reward `2`, above the declared `reward_range` upper bound. -/
theorem C10_reward_range_witness :
    (stepOutput sC10 inpC10).rewards 0 = 2 :=
  (C10_reward_range sC10 inpC10 0).2.2.2.1 (by decide) (by decide)

end ConcreteEvaluations

end GymWarehouse
